import Mathlib

/-!
Verification of the training-phase orchestrator in `train_vicap.py`.

The file embeds the orchestration logic of `main` (phase-boundary
arithmetic, the epoch loop, rank-conditional evaluation and checkpointing,
the end-of-epoch barrier) as executable Lean definitions, translated
statement by statement from the source.  External collaborators
(`evaluate_metrics`, `save_checkpoint` from `engine.caption_engine`) are
modelled from the specification where their internals are needed, and each
such definition says so in its doc comment.
-/

namespace TrainVicap

/-- Fields of `config.exp` used by `main` (train_vicap.py lines 28-29):
`rank` is the node index, `ngpus_per_node` the local device count. -/
structure ExpConfig where
  rank : ℤ
  ngpus_per_node : ℤ
  world_size : ℤ
  seed : ℤ
deriving DecidableEq, Repr

/-- Fields of `config.optimizer` used by `main` (lines 62-65): the four
per-phase epoch counts. -/
structure OptimConfig where
  freezing_xe_epochs : ℤ
  freezing_sc_epochs : ℤ
  finetune_xe_epochs : ℤ
  finetune_sc_epochs : ℤ
deriving DecidableEq, Repr

/-- The configuration object handed to `main`. -/
structure Config where
  exp : ExpConfig
  optimizer : OptimConfig
deriving DecidableEq, Repr

/-- Line 28: `rank = config.exp.rank * config.exp.ngpus_per_node + gpu`. -/
def rankOf (c : Config) (gpu : ℤ) : ℤ :=
  c.exp.rank * c.exp.ngpus_per_node + gpu

/-- Lines 35-36: `device = torch.device(f"cuda:{gpu}")` and
`torch.cuda.set_device(gpu)` — the process binds to local device `gpu`. -/
def deviceOf (gpu : ℤ) : ℤ := gpu

/-- Line 143: `mp.spawn(main, nprocs=config.exp.ngpus_per_node, ...)`
hands each spawned worker a local index `gpu` in
`0, 1, ..., ngpus_per_node - 1`. -/
def spawnGpus (c : Config) : List ℤ :=
  (List.range c.exp.ngpus_per_node.toNat).map Nat.cast

/-- Line 45: `start_epoch = 0`. -/
def start_epoch : ℤ := 0

/-- Line 46: `best_cider_val = 0.0`. -/
def init_best_cider_val : ℚ := 0

/-- Line 47: `best_cider_test = 0.0`. -/
def init_best_cider_test : ℚ := 0

/-- Line 62: `fr_xe_epochs = config.optimizer.freezing_xe_epochs`. -/
def fr_xe_epochs (c : Config) : ℤ := c.optimizer.freezing_xe_epochs

/-- Line 63: `fr_sc_epochs = fr_xe_epochs + config.optimizer.freezing_sc_epochs`. -/
def fr_sc_epochs (c : Config) : ℤ := fr_xe_epochs c + c.optimizer.freezing_sc_epochs

/-- Line 64: `ft_xe_epochs = fr_sc_epochs + config.optimizer.finetune_xe_epochs`. -/
def ft_xe_epochs (c : Config) : ℤ := fr_sc_epochs c + c.optimizer.finetune_xe_epochs

/-- Line 65: `ft_sc_epochs = ft_xe_epochs + config.optimizer.finetune_sc_epochs`. -/
def ft_sc_epochs (c : Config) : ℤ := ft_xe_epochs c + c.optimizer.finetune_sc_epochs

/-- Line 66: `total_epochs = ft_sc_epochs`. -/
def total_epochs (c : Config) : ℤ := ft_sc_epochs c

/-- Line 68: `for epoch in range(max(0, start_epoch), total_epochs)`.
With `start_epoch = 0` the loop enumerates the integers
`0, 1, ..., total_epochs - 1` (empty when `total_epochs <= 0`), so the
epoch indices are the naturals below `total_epochs`. -/
def epochsRun (c : Config) : List ℕ :=
  List.range ((total_epochs c - max 0 start_epoch).toNat)

/-- Line 69: `phase = 'ft_xe'` — the loop body assigns this same label on
every iteration, for every epoch. -/
def phaseLabelAt (_epoch : ℕ) : String := "ft_xe"

/-- The two training objectives that appear in the program family:
`xe` is token-level cross-entropy (`train_xe`), `sc` is self-critical
sequence training against a greedy baseline (`train_sc`). -/
inductive Objective where
  | xe
  | sc
deriving DecidableEq, Repr

/-- Lines 70-80: the loop body calls `train_xe(...)` unconditionally, so
the objective executed at every epoch is cross-entropy. -/
def trainCallAt (_epoch : ℕ) : Objective := Objective.xe

/-- The four phases in configured order, as named by the spec:
freeze-likelihood, freeze-reward, finetune-likelihood, finetune-reward. -/
inductive PhaseLabel where
  | fr_xe
  | fr_sc
  | ft_xe
  | ft_sc
deriving DecidableEq, Repr

/-- String tag of a phase, matching the labels used in the source. -/
def PhaseLabel.tag : PhaseLabel → String
  | .fr_xe => "fr_xe"
  | .fr_sc => "fr_sc"
  | .ft_xe => "ft_xe"
  | .ft_sc => "ft_sc"

/-- Objective tag of each phase per the spec: likelihood phases train with
cross-entropy, reward phases with self-critical training. -/
def PhaseLabel.objective : PhaseLabel → Objective
  | .fr_xe => .xe
  | .fr_sc => .sc
  | .ft_xe => .xe
  | .ft_sc => .sc

/-- The spec's `resolve(epoch)`: return the first phase whose cumulative
boundary strictly exceeds the epoch, scanning boundaries in increasing
order; `none` when `epoch >= b4` (resolution fails).  This definition
follows the spec's words; it exists to be compared with what the source
actually does (`phaseLabelAt`). -/
def specResolve (c : Config) (epoch : ℤ) : Option PhaseLabel :=
  if epoch < fr_xe_epochs c then some .fr_xe
  else if epoch < fr_sc_epochs c then some .fr_sc
  else if epoch < ft_xe_epochs c then some .ft_xe
  else if epoch < ft_sc_epochs c then some .ft_sc
  else none

/-- A configuration carrying the spec's example phase lengths
`(10, 5, 5, 20)` (exp fields: 1 node of 1 GPU, arbitrary seed). -/
def exampleConfig : Config :=
  { exp := { rank := 0, ngpus_per_node := 1, world_size := 1, seed := 42 }
    optimizer :=
      { freezing_xe_epochs := 10
        freezing_sc_epochs := 5
        finetune_xe_epochs := 5
        finetune_sc_epochs := 20 } }

end TrainVicap

namespace TrainVicap

/-- C1.  On the code, the claim fails: with phase lengths `(10, 5, 5, 20)`
the cumulative boundaries are `(10, 15, 20, 40)` and the spec's resolver
puts epoch 9 in phase 1 (`fr_xe`) and epoch 10 in phase 2 (`fr_sc`), but
the source assigns the constant label `'ft_xe'` (phase 3) to every epoch —
in particular to epochs 9, 10 and 39 — never consulting the boundaries.
This theorem evaluates both sides at the failing inputs. -/
theorem c1_phase_label_ignores_boundaries :
    (fr_xe_epochs exampleConfig = 10 ∧ fr_sc_epochs exampleConfig = 15 ∧
      ft_xe_epochs exampleConfig = 20 ∧ ft_sc_epochs exampleConfig = 40) ∧
    specResolve exampleConfig 9 = some PhaseLabel.fr_xe ∧
    specResolve exampleConfig 10 = some PhaseLabel.fr_sc ∧
    specResolve exampleConfig 39 = some PhaseLabel.ft_sc ∧
    phaseLabelAt 9 = "ft_xe" ∧ phaseLabelAt 10 = "ft_xe" ∧
    phaseLabelAt 9 ≠ PhaseLabel.fr_xe.tag ∧
    phaseLabelAt 10 ≠ PhaseLabel.fr_sc.tag := by
  refine ⟨⟨?_, ?_, ?_, ?_⟩, ?_, ?_, ?_, ?_, ?_, ?_, ?_⟩ <;> decide

/-- C2.  On the code, the claim fails: epoch 10 lies in the freeze-reward
phase (boundaries from lengths `(10, 5, 5, 20)`), whose objective is
self-critical training, yet the loop body calls `train_xe` (cross-entropy)
unconditionally at every epoch, epoch 10 included.  This theorem evaluates
the code's training call and the phase's spec objective at that epoch. -/
theorem c2_objective_never_dispatched :
    trainCallAt 10 = Objective.xe ∧
    specResolve exampleConfig 10 = some PhaseLabel.fr_sc ∧
    PhaseLabel.fr_sc.objective = Objective.sc ∧
    Objective.xe ≠ Objective.sc := by
  refine ⟨?_, ?_, ?_, ?_⟩ <;> decide

/-- A configuration whose four per-phase epoch counts are all zero
(non-positive), with the same exp fields as `exampleConfig`. -/
def zeroPhaseConfig : Config :=
  { exp := exampleConfig.exp
    optimizer :=
      { freezing_xe_epochs := 0
        freezing_sc_epochs := 0
        finetune_xe_epochs := 0
        finetune_sc_epochs := 0 } }

/-- C3 counterexample.  With all four per-phase counts non-positive the
code raises nothing: `total_epochs = 0`, the epoch loop enumerates no
epoch, and the spec-side resolver simply has no phase for any epoch — no
`ConfigError` (the source defines no such check or exception). -/
theorem c3_counterexample_no_config_error :
    total_epochs zeroPhaseConfig = 0 ∧
    epochsRun zeroPhaseConfig = [] ∧
    specResolve zeroPhaseConfig 0 = none := by
  refine ⟨?_, ?_, ?_⟩ <;> decide

/-- C3 amended.  If all four configured per-phase epoch counts are
non-positive, then no epoch of training runs: the epoch loop enumerates
the empty list (the run completes without any error being raised, as the
code defines no `ConfigError`). -/
theorem c3_nonpositive_counts_run_no_epoch (c : Config)
    (h1 : c.optimizer.freezing_xe_epochs ≤ 0)
    (h2 : c.optimizer.freezing_sc_epochs ≤ 0)
    (h3 : c.optimizer.finetune_xe_epochs ≤ 0)
    (h4 : c.optimizer.finetune_sc_epochs ≤ 0) :
    epochsRun c = [] := by
  have htot : total_epochs c ≤ 0 := by
    simp only [total_epochs, ft_sc_epochs, ft_xe_epochs, fr_sc_epochs, fr_xe_epochs]
    omega
  simp only [epochsRun, start_epoch]
  have : (total_epochs c - max 0 0).toNat = 0 := by omega
  rw [this]
  rfl

/-- Witness for C3's amended theorem at the all-zero configuration. -/
theorem c3_nonpositive_counts_run_no_epoch_witness :
    epochsRun zeroPhaseConfig = [] :=
  c3_nonpositive_counts_run_no_epoch zeroPhaseConfig
    (by decide) (by decide) (by decide) (by decide)

/-- C4.  For positive per-phase counts, the epoch loop enumerates exactly
the epoch indices `0, 1, ..., b4 - 1` where `b4` is the sum of the four
per-phase counts, and every enumerated epoch is strictly below `b4`. -/
theorem c4_epoch_loop_exact_range (c : Config)
    (_h1 : 0 < c.optimizer.freezing_xe_epochs)
    (_h2 : 0 < c.optimizer.freezing_sc_epochs)
    (_h3 : 0 < c.optimizer.finetune_xe_epochs)
    (_h4 : 0 < c.optimizer.finetune_sc_epochs) :
    epochsRun c =
      List.range ((c.optimizer.freezing_xe_epochs + c.optimizer.freezing_sc_epochs +
        c.optimizer.finetune_xe_epochs + c.optimizer.finetune_sc_epochs).toNat) ∧
    ∀ e ∈ epochsRun c, (e : ℤ) < total_epochs c := by
  have hsum : total_epochs c =
      c.optimizer.freezing_xe_epochs + c.optimizer.freezing_sc_epochs +
        c.optimizer.finetune_xe_epochs + c.optimizer.finetune_sc_epochs := by
    simp only [total_epochs, ft_sc_epochs, ft_xe_epochs, fr_sc_epochs, fr_xe_epochs]
  constructor
  · simp [epochsRun, start_epoch, hsum]
  · intro e he
    simp only [epochsRun, List.mem_range, start_epoch] at he
    omega

/-- Witness for C4 at the spec's example configuration. -/
theorem c4_epoch_loop_exact_range_witness :
    epochsRun exampleConfig = List.range 40 ∧
    ∀ e ∈ epochsRun exampleConfig, (e : ℤ) < total_epochs exampleConfig := by
  have h := c4_epoch_loop_exact_range exampleConfig
    (by decide) (by decide) (by decide) (by decide)
  exact ⟨by rw [h.1]; rfl, h.2⟩

end TrainVicap

namespace TrainVicap

/-- The two evaluation splits handled by the loop body
(`split='valid'` at line 90, `split='test'` at line 106). -/
inductive Split where
  | valid
  | test
deriving DecidableEq, Repr

/-- The observable actions a worker performs inside one iteration of the
epoch loop, plus the checkpoint-load action the engine offers but `main`
never invokes. -/
inductive Action where
  | train (obj : Objective)
  | evalSplit (s : Split)
  | saveFile (filename : String)
  | restoreCkpt
  | barrier
deriving DecidableEq, Repr

/-- Lines 83-113: `if rank == 0:` evaluate the `valid` split;
`if rank == 1:` evaluate the `test` split; every other rank evaluates
nothing. -/
def evalSplits (rank : ℤ) : List Split :=
  (if rank = 0 then [Split.valid] else []) ++ (if rank = 1 then [Split.test] else [])

/-- Decimal rendering of a natural number, most significant digit first:
the text the f-string `f'checkpoint_{epoch}.pth'` interpolates for
`epoch`. -/
def decimalStr (n : ℕ) : String :=
  if n = 0 then "0" else String.mk ((Nat.digits 10 n).reverse.map Nat.digitChar)

/-- Line 123: the rolling checkpoint filename
`f'checkpoint_{phase}.pth'`, built from the loop's phase label. -/
def rollingFilenameAt (epoch : ℕ) : String :=
  "checkpoint_" ++ phaseLabelAt epoch ++ ".pth"

/-- Line 134: the milestone checkpoint filename
`f'checkpoint_{epoch}.pth'`, built from the epoch number. -/
def milestoneFilename (epoch : ℕ) : String :=
  "checkpoint_" ++ decimalStr epoch ++ ".pth"

/-- Lines 115-136: `if rank == 0:` write the rolling checkpoint, and
additionally the milestone checkpoint when `epoch >= 15`; every other
rank writes nothing. -/
def savesOf (rank : ℤ) (epoch : ℕ) : List String :=
  if rank = 0 then
    [rollingFilenameAt epoch] ++ (if 15 ≤ epoch then [milestoneFilename epoch] else [])
  else []

/-- One iteration of the epoch loop (lines 68-138) as seen by rank
`rank` at epoch `epoch`: the unconditional `train_xe` call, the
rank-conditional evaluation, the rank-conditional checkpoint writes, and
the closing `torch.distributed.barrier()`. -/
def epochBody (rank : ℤ) (epoch : ℕ) : List Action :=
  [Action.train (trainCallAt epoch)] ++
    (evalSplits rank).map Action.evalSplit ++
    (savesOf rank epoch).map Action.saveFile ++
    [Action.barrier]

/-- The whole action trace of `main` on one worker: the epoch loop's
bodies in order.  `main` performs no checkpoint restore before or inside
the loop. -/
def mainTrace (c : Config) (rank : ℤ) : List Action :=
  ((epochsRun c).map (epochBody rank)).flatten

/-- C5.  The rank-to-split assignment is the same at every epoch and
disjoint: rank 0 (and only rank 0) evaluates `valid`, rank 1 (and only
rank 1) evaluates `test`, any other rank evaluates nothing, and every
rank's epoch-body ends with the barrier. -/
theorem c5_eval_assignment_static_disjoint :
    ∀ (r : ℤ) (e : ℕ),
      evalSplits r =
        (if r = 0 then [Split.valid] else if r = 1 then [Split.test] else []) ∧
      (Split.valid ∈ evalSplits r ↔ r = 0) ∧
      (Split.test ∈ evalSplits r ↔ r = 1) ∧
      (epochBody r e).getLast? = some Action.barrier := by
  intro r e
  refine ⟨?_, ?_, ?_, ?_⟩
  · simp only [evalSplits]
    split_ifs <;> simp_all
  · simp only [evalSplits]
    split_ifs <;> simp_all
  · simp only [evalSplits]
    split_ifs <;> simp_all
  · unfold epochBody
    exact List.getLast?_concat _

/-- Modelled from the spec: the best-score update performed inside
`evaluate_metrics` (engine.caption_engine, not under src/) — the newly
computed score replaces the current best only if strictly greater; ties
keep the incumbent. -/
def updateBest (best score : ℚ) : ℚ :=
  if best < score then score else best

/-- The per-split best maintained across epochs: fold the per-epoch
scores through `updateBest`, starting from an initial best value. -/
def runBest (init : ℚ) (scores : List ℚ) : ℚ :=
  scores.foldl updateBest init

/-- Each update takes the maximum of the incumbent and the new score. -/
theorem updateBest_eq_max (b s : ℚ) : updateBest b s = max b s := by
  unfold updateBest
  split_ifs with h
  · exact (max_eq_right h.le).symm
  · exact (max_eq_left (not_lt.mp h)).symm

/-- C6.  The best-score update keeps the incumbent unless strictly
beaten, so the tracked best is the running maximum: it never decreases as
more scores arrive, equals the prefix-maximum of the observed scores, and
on the score sequence `[0.5, 0.3, 0.7]` from the initial best `0.0` it
ends at `0.7`. -/
theorem c6_best_score_prefix_max :
    (∀ b s : ℚ, updateBest b s = max b s) ∧
    (∀ (init : ℚ) (scores : List ℚ), runBest init scores = scores.foldl max init) ∧
    (∀ (init x : ℚ) (scores : List ℚ),
      runBest init scores ≤ runBest init (scores ++ [x])) ∧
    runBest init_best_cider_val [1/2, 3/10, 7/10] = 7/10 := by
  have hfun : updateBest = fun b s : ℚ => max b s := by
    funext b s
    exact updateBest_eq_max b s
  refine ⟨updateBest_eq_max, ?_, ?_, ?_⟩
  · intro init scores
    simp [runBest, hfun]
  · intro init x scores
    simp only [runBest, List.foldl_append, List.foldl]
    rw [updateBest_eq_max]
    exact le_max_left _ _
  · norm_num [runBest, updateBest, List.foldl, init_best_cider_val]

end TrainVicap

namespace TrainVicap

/-- Decoding of a digit character back to its numeric value. -/
def undigit (c : Char) : ℕ := c.toNat - 48

/-- Decoding inverts `Nat.digitChar` on single digits. -/
theorem undigit_digitChar : ∀ d : ℕ, d < 10 → undigit (Nat.digitChar d) = d := by
  decide

/-- Digit characters of single digits stay within the ASCII digit range. -/
theorem digitChar_toNat_le : ∀ d : ℕ, d < 10 → (Nat.digitChar d).toNat ≤ 57 := by
  decide

/-- Mapping a digit list through `Nat.digitChar` and decoding again is the
identity. -/
theorem map_digitChar_cancel :
    ∀ l : List ℕ, (∀ a ∈ l, a < 10) → (l.map Nat.digitChar).map undigit = l := by
  intro l
  induction l with
  | nil => intro _; rfl
  | cons a t ih =>
    intro hl
    simp only [List.map_cons, List.cons.injEq]
    constructor
    · exact undigit_digitChar a (hl a (by simp))
    · exact ih fun x hx => hl x (by simp [hx])

/-- The digit-character rendering of the digits of a number determines the
number. -/
theorem digits_map_digitChar_inj {m n : ℕ}
    (h : (Nat.digits 10 m).reverse.map Nat.digitChar =
      (Nat.digits 10 n).reverse.map Nat.digitChar) : m = n := by
  have hm : ∀ a ∈ (Nat.digits 10 m).reverse, a < 10 := fun a ha =>
    Nat.digits_lt_base (by norm_num) (List.mem_reverse.mp ha)
  have hn : ∀ a ∈ (Nat.digits 10 n).reverse, a < 10 := fun a ha =>
    Nat.digits_lt_base (by norm_num) (List.mem_reverse.mp ha)
  have h2 := congrArg (List.map undigit) h
  rw [map_digitChar_cancel _ hm, map_digitChar_cancel _ hn] at h2
  have h3 : Nat.digits 10 m = Nat.digits 10 n := List.reverse_injective h2
  calc m = Nat.ofDigits 10 (Nat.digits 10 m) := (Nat.ofDigits_digits 10 m).symm
    _ = Nat.ofDigits 10 (Nat.digits 10 n) := by rw [h3]
    _ = n := Nat.ofDigits_digits 10 n

/-- A positive number never renders as the string `"0"`. -/
theorem decimalStr_ne_zero_str {n : ℕ} (hn : n ≠ 0) : decimalStr n ≠ "0" := by
  unfold decimalStr
  rw [if_neg hn]
  intro hEq
  have hd : (Nat.digits 10 n).reverse.map Nat.digitChar = ['0'] :=
    congrArg String.data hEq
  have h2 := congrArg (List.map undigit) hd
  have hbound : ∀ a ∈ (Nat.digits 10 n).reverse, a < 10 := fun a ha =>
    Nat.digits_lt_base (by norm_num) (List.mem_reverse.mp ha)
  rw [map_digitChar_cancel _ hbound] at h2
  have h3 : Nat.digits 10 n = [0] := by
    rw [← List.reverse_reverse (Nat.digits 10 n), h2]
    rfl
  have h4 : n = 0 := by
    have := Nat.ofDigits_digits 10 n
    rw [h3] at this
    simpa [Nat.ofDigits] using this.symm
  exact hn h4

/-- Distinct numbers render as distinct decimal strings. -/
theorem decimalStr_injective : Function.Injective decimalStr := by
  intro m n h
  by_cases hm : m = 0 <;> by_cases hn : n = 0
  · rw [hm, hn]
  · subst hm
    exact absurd h.symm (decimalStr_ne_zero_str hn)
  · subst hn
    exact absurd h (decimalStr_ne_zero_str hm)
  · have h2 : (Nat.digits 10 m).reverse.map Nat.digitChar =
        (Nat.digits 10 n).reverse.map Nat.digitChar := by
      have := h
      unfold decimalStr at this
      rw [if_neg hm, if_neg hn] at this
      exact congrArg String.data this
    exact digits_map_digitChar_inj h2

/-- Milestone filenames are distinct for distinct epochs. -/
theorem milestoneFilename_inj {e1 e2 : ℕ}
    (h : milestoneFilename e1 = milestoneFilename e2) : e1 = e2 := by
  unfold milestoneFilename at h
  have hd := congrArg String.data h
  simp only [String.data_append] at hd
  have h1 := List.append_cancel_right hd
  have h2 := List.append_cancel_left h1
  exact decimalStr_injective (String.ext h2)

/-- Every character of a decimal string is an ASCII digit. -/
theorem decimalStr_data_le (n : ℕ) : ∀ c ∈ (decimalStr n).data, c.toNat ≤ 57 := by
  unfold decimalStr
  by_cases hn : n = 0
  · rw [if_pos hn]
    intro c hc
    have : c = '0' := by simpa using hc
    rw [this]
    decide
  · rw [if_neg hn]
    intro c hc
    rcases List.mem_map.mp hc with ⟨d, hd, rfl⟩
    exact digitChar_toNat_le d (Nat.digits_lt_base (by norm_num) (List.mem_reverse.mp hd))

/-- The rolling filename (interpolating the phase label) never collides
with a milestone filename (interpolating an epoch number). -/
theorem rolling_ne_milestone (e1 e2 : ℕ) :
    rollingFilenameAt e1 ≠ milestoneFilename e2 := by
  unfold rollingFilenameAt milestoneFilename phaseLabelAt
  intro h
  have hd := congrArg String.data h
  simp only [String.data_append] at hd
  have h1 := List.append_cancel_right hd
  have h2 := List.append_cancel_left h1
  have hf : 'f' ∈ (decimalStr e2).data := by
    rw [← h2]
    decide
  exact absurd (decimalStr_data_le e2 'f' hf) (by decide)

/-- C7.  Checkpoint writing in each epoch: only rank 0 writes; it always
writes the rolling checkpoint under the phase-scoped constant name
`checkpoint_ft_xe.pth` (the same file every epoch, hence overwritten),
and exactly for epochs `>= 15` it additionally writes a milestone
checkpoint named by the epoch number; milestone names are distinct across
epochs and never collide with the rolling name, so no later epoch
overwrites a milestone. -/
theorem c7_checkpoint_writes :
    ∀ (r : ℤ) (e e' : ℕ),
      savesOf r e =
        (if r = 0 then
          rollingFilenameAt e :: (if 15 ≤ e then [milestoneFilename e] else [])
        else []) ∧
      rollingFilenameAt e = "checkpoint_ft_xe.pth" ∧
      (milestoneFilename e ∈ savesOf 0 e ↔ 15 ≤ e) ∧
      (milestoneFilename e = milestoneFilename e' ↔ e = e') ∧
      rollingFilenameAt e' ≠ milestoneFilename e := by
  intro r e e'
  refine ⟨?_, ?_, ?_, ?_, rolling_ne_milestone e' e⟩
  · unfold savesOf
    split_ifs <;> rfl
  · rfl
  · by_cases h15 : 15 ≤ e
    · simp [savesOf, h15]
    · constructor
      · intro hh
        have hs : savesOf 0 e = [rollingFilenameAt e] := by
          simp [savesOf, h15]
        rw [hs] at hh
        exact absurd (List.mem_singleton.mp hh).symm (rolling_ne_milestone e e)
      · intro hh
        exact absurd hh h15
  · exact ⟨fun hh => milestoneFilename_inj hh, fun hh => by rw [hh]⟩

end TrainVicap

namespace TrainVicap

/-- The data handed to `save_checkpoint`: the epoch index, the optimizer
step counter, the scores list and the best-cider pair passed at the call
site. -/
structure CheckpointData where
  epoch : ℕ
  optimStep : ℕ
  scores : List ℚ
  best_ciders : List ℚ
deriving DecidableEq, Repr

/-- Lines 116-125 and 127-136: both `save_checkpoint` calls pass the
current `epoch` and optimizer state together with the literal arguments
`scores=[]` and `best_ciders=[0, 0]` — not the tracked
`best_cider_val` / `best_cider_test` variables. -/
def checkpointDataAt (epoch : ℕ) (optimStep : ℕ) : CheckpointData :=
  { epoch := epoch, optimStep := optimStep, scores := [], best_ciders := [0, 0] }

/-- Modelled from the spec: `save_checkpoint` (engine.caption_engine, not
under src/) persists the given record under the given filename, leaving
every other file unchanged. -/
def saveTo (store : String → Option CheckpointData) (filename : String)
    (rec : CheckpointData) : String → Option CheckpointData :=
  fun p => if p = filename then some rec else store p

/-- Modelled from the spec: `restore(path)` returns the training state
recorded under `path` in the store. -/
def restoreFrom (store : String → Option CheckpointData) (path : String) :
    Option CheckpointData :=
  store path

/-- Modelled from the spec: `evaluate_metrics` (engine.caption_engine,
not under src/) computes the split's score for the epoch and returns the
updated best — the incumbent unless the new score is strictly greater. -/
def evaluate_metrics (best score : ℚ) : ℚ := updateBest best score

/-- Rank 0's `best_cider_val` after finishing epoch `e`: line 84
reassigns it from `evaluate_metrics` every epoch, starting from the
initial value `0.0`, given the per-epoch validation scores `score`. -/
def bestValAfter (score : ℕ → ℚ) : ℕ → ℚ
  | 0 => evaluate_metrics init_best_cider_val (score 0)
  | e + 1 => evaluate_metrics (bestValAfter score e) (score (e + 1))

/-- Rank 0's `best_cider_test` after epoch `e`: rank 0 never evaluates
the test split (lines 99-113 run only on rank 1), so the variable keeps
its initial value on rank 0. -/
def bestTestAfterRank0 (_e : ℕ) : ℚ := init_best_cider_test

/-- C8 counterexample.  With a validation score of `0.5` at epoch 0, rank
0's tracked best scores after epoch 0 are `(0.5, 0)`, yet the checkpoint
record written at epoch 0 carries `best_ciders = [0, 0]` — the recorded
best scores are not the ones actually tracked. -/
theorem c8_counterexample_bests_not_recorded :
    bestValAfter (fun _ => 1/2) 0 = 1/2 ∧
    (checkpointDataAt 0 7).best_ciders = [0, 0] ∧
    (checkpointDataAt 0 7).best_ciders ≠
      [bestValAfter (fun _ => 1/2) 0, bestTestAfterRank0 0] := by
  have hv : bestValAfter (fun _ => (1 : ℚ)/2) 0 = 1/2 := by
    norm_num [bestValAfter, evaluate_metrics, updateBest, init_best_cider_val]
  refine ⟨hv, rfl, ?_⟩
  rw [hv]
  norm_num [checkpointDataAt]

/-- C8 amended.  Writing the record built at epoch `k` and reading the
same filename back reproduces that record exactly — its epoch index and
optimizer step count are the ones saved — but the best-cider entry of
every record the loop writes is the constant `[0, 0]` (and its scores
list the constant `[]`), independent of the tracked best scores. -/
theorem c8_checkpoint_roundtrip_zero_bests :
    ∀ (store : String → Option CheckpointData) (k step : ℕ) (fn : String),
      restoreFrom (saveTo store fn (checkpointDataAt k step)) fn =
        some (checkpointDataAt k step) ∧
      (checkpointDataAt k step).epoch = k ∧
      (checkpointDataAt k step).optimStep = step ∧
      (checkpointDataAt k step).scores = [] ∧
      (checkpointDataAt k step).best_ciders = [0, 0] := by
  intro store k step fn
  refine ⟨?_, rfl, rfl, rfl, rfl⟩
  simp [restoreFrom, saveTo]

/-- C9.  Rank arithmetic: with `0 < D` devices per node, node index in
`[0, N)` and local GPU index drawn from the spawned range `[0, D)`, the
rank `node * D + gpu` lies in `[0, world_size)` when
`world_size = N * D`; the bound device equals `rank mod D`; distinct
(node, gpu) pairs get distinct ranks; and every rank in
`[0, world_size)` is realised by exactly such a pair — so ranks form the
contiguous range `[0, world_size)` with one rank per process. -/
theorem c9_rank_device_bijection (c : Config) (g N : ℤ)
    (hD : 0 < c.exp.ngpus_per_node)
    (hn0 : 0 ≤ c.exp.rank) (hnN : c.exp.rank < N)
    (hg : g ∈ spawnGpus c)
    (hw : c.exp.world_size = N * c.exp.ngpus_per_node) :
    (0 ≤ rankOf c g ∧ rankOf c g < c.exp.world_size) ∧
    deviceOf g = rankOf c g % c.exp.ngpus_per_node ∧
    (∀ n1 g1 n2 g2 : ℤ,
      0 ≤ g1 → g1 < c.exp.ngpus_per_node →
      0 ≤ g2 → g2 < c.exp.ngpus_per_node →
      n1 * c.exp.ngpus_per_node + g1 = n2 * c.exp.ngpus_per_node + g2 →
      n1 = n2 ∧ g1 = g2) ∧
    (∀ r : ℤ, 0 ≤ r → r < c.exp.world_size →
      ∃ n' g', 0 ≤ n' ∧ n' < N ∧ 0 ≤ g' ∧ g' < c.exp.ngpus_per_node ∧
        n' * c.exp.ngpus_per_node + g' = r) := by
  have hgb : 0 ≤ g ∧ g < c.exp.ngpus_per_node := by
    unfold spawnGpus at hg
    rcases List.mem_map.mp hg with ⟨k, hk, hkg⟩
    have hk2 : k < c.exp.ngpus_per_node.toNat := List.mem_range.mp hk
    have hkg2 : (k : ℤ) = g := hkg
    constructor
    · rw [← hkg2]
      exact Int.natCast_nonneg k
    · rw [← hkg2]
      omega
  have hmod : ∀ n' g' : ℤ, 0 ≤ g' → g' < c.exp.ngpus_per_node →
      (n' * c.exp.ngpus_per_node + g') % c.exp.ngpus_per_node = g' := by
    intro n' g' h0 hlt
    rw [add_comm, mul_comm, Int.add_mul_emod_self_left]
    exact Int.emod_eq_of_lt h0 hlt
  refine ⟨⟨?_, ?_⟩, ?_, ?_, ?_⟩
  · exact add_nonneg (mul_nonneg hn0 hD.le) hgb.1
  · rw [hw]
    unfold rankOf
    nlinarith [hgb.2, hnN, hD, hgb.1]
  · unfold rankOf deviceOf
    exact (hmod _ g hgb.1 hgb.2).symm
  · intro n1 g1 n2 g2 hg10 hg1D hg20 hg2D heq
    have e1 := hmod n1 g1 hg10 hg1D
    have e2 := hmod n2 g2 hg20 hg2D
    have hgg : g1 = g2 := by rw [← e1, heq, e2]
    have hnn : n1 = n2 := by
      have hmul : n1 * c.exp.ngpus_per_node = n2 * c.exp.ngpus_per_node := by
        rw [hgg] at heq
        exact add_right_cancel heq
      exact mul_right_cancel₀ (ne_of_gt hD) hmul
    exact ⟨hnn, hgg⟩
  · intro r hr0 hrW
    rw [hw] at hrW
    refine ⟨r / c.exp.ngpus_per_node, r % c.exp.ngpus_per_node,
      Int.ediv_nonneg hr0 hD.le, ?_, Int.emod_nonneg r (ne_of_gt hD),
      Int.emod_lt_of_pos r hD, ?_⟩
    · exact (Int.ediv_lt_iff_lt_mul hD).mpr hrW
    · rw [mul_comm]
      exact Int.ediv_add_emod r c.exp.ngpus_per_node

/-- A two-node, four-GPU-per-node configuration for the worker with node
index 1, used to witness the rank-arithmetic theorem. -/
def witnessConfig : Config :=
  { exp := { rank := 1, ngpus_per_node := 4, world_size := 8, seed := 0 }
    optimizer := exampleConfig.optimizer }

/-- Witness for C9: node 1 of 2, local GPU 3 of 4, so rank 7 of 8 and
device `7 mod 4 = 3`. -/
theorem c9_rank_device_bijection_witness :
    (0 ≤ rankOf witnessConfig 3 ∧
      rankOf witnessConfig 3 < witnessConfig.exp.world_size) ∧
    deviceOf 3 = rankOf witnessConfig 3 % witnessConfig.exp.ngpus_per_node ∧
    (∀ n1 g1 n2 g2 : ℤ,
      0 ≤ g1 → g1 < witnessConfig.exp.ngpus_per_node →
      0 ≤ g2 → g2 < witnessConfig.exp.ngpus_per_node →
      n1 * witnessConfig.exp.ngpus_per_node + g1 =
        n2 * witnessConfig.exp.ngpus_per_node + g2 →
      n1 = n2 ∧ g1 = g2) ∧
    (∀ r : ℤ, 0 ≤ r → r < witnessConfig.exp.world_size →
      ∃ n' g', 0 ≤ n' ∧ n' < 2 ∧ 0 ≤ g' ∧ g' < witnessConfig.exp.ngpus_per_node ∧
        n' * witnessConfig.exp.ngpus_per_node + g' = r) :=
  c9_rank_device_bijection witnessConfig 3 2
    (by decide) (by decide) (by decide) (by decide) (by decide)

/-- The epoch-loop body never performs a checkpoint-restore action. -/
theorem restoreCkpt_not_in_epochBody (r : ℤ) (e : ℕ) :
    Action.restoreCkpt ∉ epochBody r e := by
  unfold epochBody evalSplits savesOf
  split_ifs <;> simp

/-- C10.  `main` starts every run fresh: the starting epoch is 0, both
best scores start at 0.0, and no action in any worker's whole trace is a
checkpoint restore — a run launched through this entry point never
resumes from a previously written checkpoint. -/
theorem c10_fresh_start_no_restore :
    start_epoch = 0 ∧ init_best_cider_val = 0 ∧ init_best_cider_test = 0 ∧
    ∀ (c : Config) (r : ℤ), Action.restoreCkpt ∉ mainTrace c r := by
  refine ⟨rfl, rfl, rfl, ?_⟩
  intro c r hmem
  rw [mainTrace] at hmem
  rcases List.mem_flatten.mp hmem with ⟨l, hl, hal⟩
  rcases List.mem_map.mp hl with ⟨e, _, rfl⟩
  exact restoreCkpt_not_in_epochBody r e hal

end TrainVicap
